import Mathlib

/-!
Shallow embedding of the GTEx RNAseq preprocessing pipeline
(`gtex_rnaseq_prep_app.py`): sample cleaning, the per-tissue cross-sex
consistency filter, the median aggregator, and the profile reshaper.

Tables are lists of records; pandas NaN-able columns are `Option` fields;
the Python functions that can raise (`CleanRnaseq`'s possibly-unbound
accumulator, `pivot` on duplicate keys) return `Option`.
-/

namespace GtexPrep

/-- The decoded sex value: `'F'` or `'M'`. -/
inductive Sex where
  | F : Sex
  | M : Sex
deriving DecidableEq

/-- Numeric code used to order sexes the way pandas orders the strings
`'F' < 'M'`. -/
def Sex.toNat : Sex → Nat
  | .F => 0
  | .M => 1

/-! ## A computable lexicographic order on strings

pandas sorts string columns lexicographically by code point.  The order
is defined here by structural recursion on the character list so that
the kernel can evaluate it on concrete data. -/

/-- Strict lexicographic order on character lists (by code point). -/
def lexLt : List Char → List Char → Prop
  | [], [] => False
  | [], _ :: _ => True
  | _ :: _, [] => False
  | a :: as, b :: bs => a < b ∨ (a = b ∧ lexLt as bs)

instance decLexLt : ∀ l₁ l₂ : List Char, Decidable (lexLt l₁ l₂)
  | [], [] => isFalse (fun h => h)
  | [], _ :: _ => isTrue trivial
  | _ :: _, [] => isFalse (fun h => h)
  | a :: as, b :: bs =>
    have : Decidable (lexLt as bs) := decLexLt as bs
    inferInstanceAs (Decidable (_ ∨ _))

/-- Strict lexicographic order on strings. -/
def strLt (a b : String) : Prop := lexLt a.data b.data

instance : DecidableRel strLt := fun a b => decLexLt a.data b.data

/-- Non-strict lexicographic order on strings. -/
def strLe (a b : String) : Prop := strLt a b ∨ a = b

instance : DecidableRel strLe := fun a b => by
  unfold strLe; infer_instance

/-- The startsWith test, computed on the character lists. -/
def listStarts : List Char → List Char → Bool
  | _, [] => true
  | [], _ :: _ => false
  | a :: as, b :: bs => a == b && listStarts as bs

/-- The pandas test `s.str.startswith(p)`. -/
def strStarts (s p : String) : Bool :=
  listStarts s.data p.data

/-- The pandas test `s.str.strip()==''`: the string is all whitespace. -/
def isBlank (s : String) : Bool :=
  s.data.all (fun c => c.isWhitespace)

/-! ## Sample table and `CleanSamples` -/

/-- One row of the merged samples/subjects table as it enters
`CleanSamples`: columns SAMPID, SMATSSCR, SMTS, SMTSD, SUBJID, SEX (still
the numeric code), AGE, DTHHRDY.  Every column may hold NaN, hence
`Option`. -/
structure SampleRowIn where
  sampid : Option String
  smatsscr : Option ℚ
  smts : Option String
  smtsd : Option String
  subjid : Option String
  sexCode : Option ℤ
  age : Option String
  dthhrdy : Option ℚ
deriving DecidableEq

/-- One row of the cleaned sample table: the SEX column now holds the
decoded value, which is null when the code was neither 2 nor 1. -/
structure SampleRow where
  sampid : String
  smatsscr : ℚ
  smts : String
  smtsd : String
  subjid : String
  sex : Option Sex
  age : String
  dthhrdy : ℚ
deriving DecidableEq

/-- The sex decode applied by `CleanSamples`:
`'F' if x==2 else 'M' if x==1 else None`. -/
def decodeSex (x : ℤ) : Option Sex :=
  if x = 2 then some Sex.F else if x = 1 then some Sex.M else none

/-- The `dropna(how='any')` step of `CleanSamples` composed with the SEX
decode: a row survives `dropna` iff every column is non-null, and only
then is its sex code decoded (the decode itself may produce null). -/
def dropnaDecode (r : SampleRowIn) : Option SampleRow :=
  match r.sampid, r.smatsscr, r.smts, r.smtsd, r.subjid, r.sexCode, r.age, r.dthhrdy with
  | some a, some b, some c, some d, some e, some f, some g, some h =>
      some ⟨a, b, c, d, e, decodeSex f, g, h⟩
  | _, _, _, _, _, _, _, _ => none

/-- CleanSamples: drop rows with any null column, decode SEX
(2 to F, 1 to M, otherwise null), keep rows with SMATSSCR < 2, and set
SMTS to "Skin" where SMTS is blank and SMTSD starts with "Skin -". -/
def CleanSamples (samples : List SampleRowIn) : List SampleRow :=
  let complete := samples.filterMap dropnaDecode
  let lowAutolysis := complete.filter (fun r => decide (r.smatsscr < 2))
  lowAutolysis.map (fun r =>
    if isBlank r.smts && strStarts r.smtsd "Skin -" then { r with smts := "Skin" } else r)

/-! ## Expression table and `CleanRnaseq` -/

/-- One row of the long-form annotated expression table entering
`CleanRnaseq` (columns ENSG, SMTSD, SAMPID, SMATSSCR, SEX, AGE, DTHHRDY,
TPM).  SEX comes from `CleanSamples`, so it can be null. -/
structure RnaseqRow where
  ensg : String
  smtsd : String
  sampid : String
  smatsscr : ℚ
  sex : Option Sex
  age : String
  dthhrdy : ℚ
  tpm : ℚ
deriving DecidableEq

/-- Ascending sort of a list of strings, as `sort_values()` does. -/
def strSort (l : List String) : List String :=
  l.insertionSort strLe

/-- The pandas expression `rnaseq.SMTSD.sort_values().unique()`: the distinct tissue labels in
ascending order. -/
def sortedTissues (rows : List RnaseqRow) : List String :=
  strSort (rows.map (fun r => r.smtsd)).dedup

/-- The tissue restriction `rnaseq[rnaseq.SMTSD==smtsd]`. -/
def rowsOfTissue (rows : List RnaseqRow) (t : String) : List RnaseqRow :=
  rows.filter (fun r => r.smtsd == t)

/-- The count `Series.nunique()` of the SEX column: distinct non-null sex values. -/
def distinctSexes (rows : List RnaseqRow) : List Sex :=
  (rows.filterMap (fun r => r.sex)).dedup

/-- The gene restriction `rows[rows.ENSG==g]`. -/
def geneRows (rows : List RnaseqRow) (g : String) : List RnaseqRow :=
  rows.filter (fun r => r.ensg == g)

/-- Within one tissue's rows, the per-gene test `not nsex_lt2`: the gene
has at least two distinct non-null sexes. -/
def geneSexOk (rows : List RnaseqRow) (g : String) : Bool :=
  decide (2 ≤ (distinctSexes (geneRows rows g)).length)

/-- One iteration of `CleanRnaseq`'s first loop for tissue `t`:
`none` models the `continue` taken when the tissue has fewer than two
distinct sexes; otherwise the tissue's rows with the `nsex_lt2` genes
removed. -/
def tissueStep2 (rows : List RnaseqRow) (t : String) : Option (List RnaseqRow) :=
  let trows := rowsOfTissue rows t
  if (distinctSexes trows).length < 2 then none
  else some (trows.filter (fun r => geneSexOk trows r.ensg))

/-- The maximum `Series.max()` over a TPM column: `none` on an empty column. -/
def maxTpm : List ℚ → Option ℚ
  | [] => none
  | x :: xs => some (xs.foldl max x)

/-- Within one tissue's rows, the per-gene test `tpm_all0`: the maximum
TPM of the gene's rows equals zero. -/
def geneAllZero (rows : List RnaseqRow) (g : String) : Bool :=
  maxTpm ((geneRows rows g).map (fun r => r.tpm)) == some 0

/-- One iteration of `CleanRnaseq`'s second loop for tissue `t`: the
tissue's rows with the `tpm_all0` genes removed. -/
def tissueStep3 (rows : List RnaseqRow) (t : String) : List RnaseqRow :=
  let trows := rowsOfTissue rows t
  trows.filter (fun r => !geneAllZero trows r.ensg)

/-- The accumulation pattern shared by both loops of `CleanRnaseq`:

```
for i,smtsd in enumerate(...):
  ... maybe continue ...
  if i==0: rnaseq_out = rnaseq_this
  else:    rnaseq_out = pandas.concat([rnaseq_out, rnaseq_this])
```

`acc` is the current binding of the Python local `rnaseq_out` (`none` =
not yet bound).  `step t = none` models a `continue`.  A `concat` that
reads the unbound variable raises `NameError`; the overall result `none`
models that the function (or the assignment reading `rnaseq_out` right
after the loop) raises.  Note the `i == 0` branch assigns regardless of
any earlier binding, and that a loop over zero tissues leaves the
previous binding untouched. -/
def accumTissues (step : String → Option (List RnaseqRow)) :
    List String → Nat → Option (List RnaseqRow) → Option (List RnaseqRow)
  | [], _, acc => acc
  | t :: ts, i, acc =>
    match step t with
    | none => accumTissues step ts (i + 1) acc
    | some part =>
      if i = 0 then accumTissues step ts (i + 1) (some part)
      else
        match acc with
        | none => none
        | some s => accumTissues step ts (i + 1) (some (s ++ part))

/-- The manual breast-tissue test `rnaseq.SMTSD.str.match('^Breast')`. -/
def isBreast (r : RnaseqRow) : Bool :=
  strStarts r.smtsd "Breast"

/-- The final `sort_values(by=['ENSG','SMTSD','SAMPID'])` ordering. -/
def rowLe (a b : RnaseqRow) : Prop :=
  strLt a.ensg b.ensg ∨ (a.ensg = b.ensg ∧
    (strLt a.smtsd b.smtsd ∨ (a.smtsd = b.smtsd ∧ strLe a.sampid b.sampid)))

instance : DecidableRel rowLe := fun a b => by
  unfold rowLe; infer_instance

/-- CleanRnaseq: per tissue (ascending label order) drop sex-specific
tissues and genes lacking both sexes; remove breast tissues by label
prefix; per remaining tissue drop genes whose TPMs are all zero; sort by
(ENSG, SMTSD, SAMPID).  Returns `none` where the Python raises
`NameError` because the accumulator `rnaseq_out` was never bound in the
first loop.  The second loop starts with the accumulator still bound to
the first loop's result, so with zero remaining tissues it returns that
stale value. -/
def CleanRnaseq (rows : List RnaseqRow) : Option (List RnaseqRow) :=
  match accumTissues (tissueStep2 rows) (sortedTissues rows) 0 none with
  | none => none
  | some out1 =>
    let noBreast := out1.filter (fun r => !isBreast r)
    match accumTissues (fun t => some (tissueStep3 noBreast t))
        (sortedTissues noBreast) 0 (some out1) with
    | none => none
    | some out2 => some (out2.insertionSort rowLe)

/-! ## Median aggregator (`SABV_aggregate_median`) -/

/-- Ascending sort of rationals, as used by the statistical median. -/
def ratSort (l : List ℚ) : List ℚ :=
  l.insertionSort (fun a b => a ≤ b)

/-- The statistical median as pandas computes it: sort the values; an
odd-sized list yields the central order statistic, an even-sized one the
average of the two central order statistics; an empty list has no
median. -/
def median (l : List ℚ) : Option ℚ :=
  if l.length = 0 then none
  else if l.length % 2 = 1 then (ratSort l).get? (l.length / 2)
  else
    match (ratSort l).get? (l.length / 2 - 1), (ratSort l).get? (l.length / 2) with
    | some a, some b => some ((a + b) / 2)
    | _, _ => none

/-- A `groupby(['ENSG','SMTSD','SEX'])` group key. -/
abbrev GroupKey := String × String × Sex

/-- The group key of a row; `none` when SEX is null, because pandas
`groupby` silently drops rows with a null key. -/
def keyOf (r : RnaseqRow) : Option GroupKey :=
  r.sex.map (fun s => (r.ensg, r.smtsd, s))

/-- Lexicographic order on group keys; pandas sorts group keys
ascending, and the string 'F' precedes 'M'. -/
def keyLe (a b : GroupKey) : Prop :=
  strLt a.1 b.1 ∨ (a.1 = b.1 ∧
    (strLt a.2.1 b.2.1 ∨ (a.2.1 = b.2.1 ∧ a.2.2.toNat ≤ b.2.2.toNat)))

instance : DecidableRel keyLe := fun a b => by
  unfold keyLe; infer_instance

/-- One row of the aggregate (median TPM) table: columns ENSG, SMTSD,
SEX, TPM. -/
structure AggRow where
  ensg : String
  smtsd : String
  sex : Sex
  tpm : ℚ
deriving DecidableEq

/-- The rows contributing to a group: same gene, tissue and (non-null)
sex. -/
def groupOf (rows : List RnaseqRow) (k : GroupKey) : List RnaseqRow :=
  rows.filter (fun r => r.ensg == k.1 && r.smtsd == k.2.1 && r.sex == some k.2.2)

/-- The aggregate record of one group. -/
def mkAggRow (rows : List RnaseqRow) (k : GroupKey) : AggRow :=
  ⟨k.1, k.2.1, k.2.2, (median ((groupOf rows k).map (fun r => r.tpm))).getD 0⟩

/-- The distinct group keys of the table, in the ascending order pandas
emits groups. -/
def sortedKeys (rows : List RnaseqRow) : List GroupKey :=
  ((rows.filterMap keyOf).dedup).insertionSort keyLe

/-- SABV_aggregate_median: group by (ENSG, SMTSD, SEX) and take the
median TPM of each group, one output row per group, keys ascending. -/
def SABV_aggregate_median (rows : List RnaseqRow) : List AggRow :=
  (sortedKeys rows).map (mkAggRow rows)

/-- The (ENSG, SMTSD, SEX) key of an aggregate row. -/
def aggKey (a : AggRow) : GroupKey :=
  (a.ensg, a.smtsd, a.sex)

/-! ## Profile reshaper (`PivotToProfiles`) -/

/-- One row of the wide profile table: gene, sex, and one cell per
tissue column (in the resolved column order); a missing cell is
`none`. -/
structure ProfileRow where
  ensg : String
  sex : Sex
  cells : List (Option ℚ)
deriving DecidableEq

/-- The observed tissues `pandas.Series(pandas.unique(rnaseq.SMTSD.sort_values()))`: the
distinct tissue labels of the aggregate table, ascending. -/
def observedTissues (rows : List AggRow) : List String :=
  strSort (rows.map (fun r => r.smtsd)).dedup

/-- The set comparison `set(tissues) == set(tissues_ordered)`. -/
def sameSet (xs ys : List String) : Bool :=
  xs.all (fun x => ys.contains x) && ys.all (fun y => xs.contains y)

/-- The tissue column order `PivotToProfiles` resolves to: the supplied
order when its label set matches the observed set exactly, otherwise the
ascending observed labels. -/
def resolvedTissues (rows : List AggRow) (tissues_ordered : Option (List String)) :
    List String :=
  match tissues_ordered with
  | none => observedTissues rows
  | some tl => if sameSet (observedTissues rows) tl then tl else observedTissues rows

/-- The mismatch diagnostics `PivotToProfiles` logs: the tissues of the
supplied list missing from the samples, and the sample tissues missing
from the supplied list.  Empty when no ordered list is supplied or the
sets match. -/
def pivotDiagnostics (rows : List AggRow) (tissues_ordered : Option (List String)) :
    List (List String) :=
  match tissues_ordered with
  | none => []
  | some tl =>
    if sameSet (observedTissues rows) tl then []
    else [tl.filter (fun t => !(observedTissues rows).contains t),
          (observedTissues rows).filter (fun t => !tl.contains t)]

/-- Pandas `DataFrame.pivot` raises on a duplicate (index, column) pair: a
duplicate (ENSG, SMTSD) within one sex's sub-table. -/
def pivotKeyClash (rs : List AggRow) : Prop :=
  ¬ (rs.map (fun r => (r.ensg, r.smtsd))).Nodup

instance : DecidablePred pivotKeyClash := fun rs => by
  unfold pivotKeyClash; infer_instance

/-- The pivoted sub-table for one sex: one row per distinct gene
(ascending, as the pivot sorts its index), one cell per resolved tissue
column, holding the TPM of the unique matching aggregate row, or a
missing value. -/
def profileRows (tissues : List String) (s : Sex) (rs : List AggRow) : List ProfileRow :=
  (strSort (rs.map (fun r => r.ensg)).dedup).map (fun g =>
    ⟨g, s, tissues.map (fun t =>
      ((rs.find? (fun r => r.ensg == g && r.smtsd == t)).map (fun r => r.tpm)))⟩)

/-- PivotToProfiles: split the aggregate table by sex, pivot each part
to one row per gene with one column per tissue, concatenate (female rows
first), and order the columns as ENSG, SEX, then the resolved tissue
order.  Returns the column list, the profile rows and the logged
mismatch diagnostics; `none` models the `pivot` exception on duplicate
keys. -/
def PivotToProfiles (rows : List AggRow) (tissues_ordered : Option (List String)) :
    Option (List String × List ProfileRow × List (List String)) :=
  let tissues := resolvedTissues rows tissues_ordered
  let rows_f := rows.filter (fun r => r.sex == Sex.F)
  let rows_m := rows.filter (fun r => r.sex == Sex.M)
  if pivotKeyClash rows_f ∨ pivotKeyClash rows_m then none
  else
    some ("ENSG" :: "SEX" :: tissues,
          profileRows tissues Sex.F rows_f ++ profileRows tissues Sex.M rows_m,
          pivotDiagnostics rows tissues_ordered)

/-! ## Sex-completeness of `CleanRnaseq` (claim C1) -/

/-- The sex-completeness property of a table: every row's (gene, tissue)
pair also occurs with a female record and with a male record. -/
def BothSexes (l : List RnaseqRow) : Prop :=
  ∀ r ∈ l,
    (∃ rf ∈ l, rf.ensg = r.ensg ∧ rf.smtsd = r.smtsd ∧ rf.sex = some Sex.F) ∧
    (∃ rm ∈ l, rm.ensg = r.ensg ∧ rm.smtsd = r.smtsd ∧ rm.sex = some Sex.M)

/-- A concrete sample row whose coded sex is 3 (neither 2 nor 1) and
which passes every other filter of `CleanSamples`. -/
def c3Input : List SampleRowIn :=
  [⟨some "GTEX-ABC-0001", some 0, some "Blood", some "Whole Blood",
    some "GTEX-ABC", some 3, some "60-69", some 1⟩]

/-! ## Concrete inputs: the accumulator bugs of `CleanRnaseq`
(claims C2, C6, C7) and the claim witnesses -/

/-- A table whose alphabetically first tissue ("Adipose") has samples of
one sex only, while a later tissue ("Blood") has both. -/
def c2Rows : List RnaseqRow :=
  [⟨"G1", "Adipose", "S1", 0, some Sex.F, "60-69", 1, 1⟩,
   ⟨"G1", "Blood", "S2", 0, some Sex.F, "60-69", 1, 1⟩,
   ⟨"G1", "Blood", "S3", 0, some Sex.M, "60-69", 1, 2⟩]

/-- A table whose only tissue is sex-specific. -/
def c2AllRows : List RnaseqRow :=
  [⟨"G1", "Adipose", "S1", 0, some Sex.F, "60-69", 1, 1⟩]

/-- A table whose only tissue is breast, sampled in both sexes with
nonzero expression. -/
def c6Rows : List RnaseqRow :=
  [⟨"G1", "Breast - Mammary Tissue", "S1", 0, some Sex.F, "60-69", 1, 1⟩,
   ⟨"G1", "Breast - Mammary Tissue", "S2", 0, some Sex.M, "60-69", 1, 2⟩]

/-- A table whose only tissue is breast, sampled in both sexes, with all
expression values zero. -/
def c7Rows : List RnaseqRow :=
  [⟨"G2", "Breast - Mammary Tissue", "S1", 0, some Sex.F, "60-69", 1, 0⟩,
   ⟨"G2", "Breast - Mammary Tissue", "S2", 0, some Sex.M, "60-69", 1, 0⟩]

/-! ## Witnesses -/

def w1F : RnaseqRow := ⟨"G1", "Liver", "S1", 0, some Sex.F, "60-69", 1, 1⟩

def w1M : RnaseqRow := ⟨"G1", "Liver", "S2", 0, some Sex.M, "60-69", 1, 2⟩

def w1Rows : List RnaseqRow := [w1F, w1M]

def w3In : SampleRowIn :=
  ⟨some "GTEX-AB-0001", some 0, some "Blood", some "Whole Blood",
   some "GTEX-AB", some 2, some "50-59", some 0⟩

def w3Out : SampleRow :=
  ⟨"GTEX-AB-0001", 0, "Blood", "Whole Blood", "GTEX-AB", some Sex.F, "50-59", 0⟩

def w4Rows : List RnaseqRow :=
  [⟨"G", "T", "S1", 0, some Sex.F, "60-69", 1, 1⟩,
   ⟨"G", "T", "S2", 0, some Sex.F, "60-69", 1, 2⟩,
   ⟨"G", "T", "S3", 0, some Sex.F, "60-69", 1, 3⟩,
   ⟨"G", "T", "S4", 0, some Sex.F, "60-69", 1, 4⟩]

def w5a : RnaseqRow := ⟨"G1", "Liver", "S1", 0, some Sex.F, "60-69", 1, 1⟩

def w5b : RnaseqRow := ⟨"G2", "Lung", "S2", 0, some Sex.M, "60-69", 1, 3⟩

def w8Rows : List AggRow :=
  [⟨"G", "A", Sex.F, 1⟩, ⟨"G", "B", Sex.M, 2⟩]

def w9Rows : List AggRow := [⟨"G", "T", Sex.F, 1⟩]

theorem lexLt_trans : ∀ l₁ l₂ l₃ : List Char,
    lexLt l₁ l₂ → lexLt l₂ l₃ → lexLt l₁ l₃
  | [], [], _, h, _ => absurd h id
  | [], _ :: _, [], _, h => absurd h id
  | [], _ :: _, _ :: _, _, _ => trivial
  | _ :: _, [], _, h, _ => absurd h id
  | _ :: _, _ :: _, [], _, h => absurd h id
  | a :: as, b :: bs, c :: cs, h₁, h₂ => by
    rcases h₁ with h₁ | ⟨rfl, h₁⟩
    · rcases h₂ with h₂ | ⟨rfl, _⟩
      · exact Or.inl (lt_trans h₁ h₂)
      · exact Or.inl h₁
    · rcases h₂ with h₂ | ⟨rfl, h₂⟩
      · exact Or.inl h₂
      · exact Or.inr ⟨rfl, lexLt_trans as bs cs h₁ h₂⟩

theorem lexLt_asymm : ∀ l₁ l₂ : List Char, lexLt l₁ l₂ → lexLt l₂ l₁ → False
  | [], [], h, _ => h
  | [], _ :: _, _, h => h
  | _ :: _, [], h, _ => h
  | a :: as, b :: bs, h₁, h₂ => by
    rcases h₁ with h₁ | ⟨rfl, h₁⟩
    · rcases h₂ with h₂ | ⟨h₂, _⟩
      · exact absurd h₂ (lt_asymm h₁)
      · exact absurd h₁ (h₂ ▸ lt_irrefl _)
    · rcases h₂ with h₂ | ⟨_, h₂⟩
      · exact absurd h₂ (lt_irrefl _)
      · exact lexLt_asymm as bs h₁ h₂

theorem lexLt_trichotomy : ∀ l₁ l₂ : List Char,
    lexLt l₁ l₂ ∨ l₁ = l₂ ∨ lexLt l₂ l₁
  | [], [] => Or.inr (Or.inl rfl)
  | [], _ :: _ => Or.inl trivial
  | _ :: _, [] => Or.inr (Or.inr trivial)
  | a :: as, b :: bs => by
    rcases lt_trichotomy a b with h | rfl | h
    · exact Or.inl (Or.inl h)
    · rcases lexLt_trichotomy as bs with h | rfl | h
      · exact Or.inl (Or.inr ⟨rfl, h⟩)
      · exact Or.inr (Or.inl rfl)
      · exact Or.inr (Or.inr (Or.inr ⟨rfl, h⟩))
    · exact Or.inr (Or.inr (Or.inl h))

theorem strLt_trans {a b c : String} (h₁ : strLt a b) (h₂ : strLt b c) : strLt a c :=
  lexLt_trans a.data b.data c.data h₁ h₂

theorem strLt_asymm {a b : String} (h₁ : strLt a b) (h₂ : strLt b a) : False :=
  lexLt_asymm a.data b.data h₁ h₂

theorem strEq_of_dataEq {a b : String} (h : a.data = b.data) : a = b := by
  cases a; cases b; exact congrArg String.mk h

theorem strLt_trichotomy (a b : String) : strLt a b ∨ a = b ∨ strLt b a := by
  rcases lexLt_trichotomy a.data b.data with h | h | h
  · exact Or.inl h
  · exact Or.inr (Or.inl (strEq_of_dataEq h))
  · exact Or.inr (Or.inr h)

instance : IsTrans String strLe := ⟨by
  rintro a b c (h₁ | rfl) (h₂ | rfl)
  · exact Or.inl (strLt_trans h₁ h₂)
  · exact Or.inl h₁
  · exact Or.inl h₂
  · exact Or.inr rfl⟩

instance : IsTotal String strLe := ⟨by
  intro a b
  rcases strLt_trichotomy a b with h | rfl | h
  · exact Or.inl (Or.inl h)
  · exact Or.inl (Or.inr rfl)
  · exact Or.inr (Or.inl h)⟩

instance : IsAntisymm String strLe := ⟨by
  rintro a b (h₁ | rfl) (h₂ | h₂)
  · exact absurd h₂ (fun h => strLt_asymm h₁ h)
  · exact h₂.symm
  · rfl
  · rfl⟩

theorem Sex.toNat_inj : ∀ a b : Sex, a.toNat = b.toNat → a = b := by
  intro a b h
  cases a <;> cases b <;> simp_all [Sex.toNat]

instance : IsTrans GroupKey keyLe := ⟨by
  rintro ⟨a1, a2, a3⟩ ⟨b1, b2, b3⟩ ⟨c1, c2, c3⟩ h₁ h₂
  rcases h₁ with h₁ | ⟨rfl, h₁⟩
  · rcases h₂ with h₂ | ⟨rfl, _⟩
    · exact Or.inl (strLt_trans h₁ h₂)
    · exact Or.inl h₁
  · rcases h₂ with h₂ | ⟨rfl, h₂⟩
    · exact Or.inl h₂
    · rcases h₁ with h₁ | ⟨rfl, h₁⟩
      · rcases h₂ with h₂ | ⟨rfl, _⟩
        · exact Or.inr ⟨rfl, Or.inl (strLt_trans h₁ h₂)⟩
        · exact Or.inr ⟨rfl, Or.inl h₁⟩
      · rcases h₂ with h₂ | ⟨rfl, h₂⟩
        · exact Or.inr ⟨rfl, Or.inl h₂⟩
        · exact Or.inr ⟨rfl, Or.inr ⟨rfl, le_trans h₁ h₂⟩⟩⟩

instance : IsTotal GroupKey keyLe := ⟨by
  rintro ⟨a1, a2, a3⟩ ⟨b1, b2, b3⟩
  rcases strLt_trichotomy a1 b1 with h | rfl | h
  · exact Or.inl (Or.inl h)
  · rcases strLt_trichotomy a2 b2 with h | rfl | h
    · exact Or.inl (Or.inr ⟨rfl, Or.inl h⟩)
    · rcases Nat.le_total a3.toNat b3.toNat with h | h
      · exact Or.inl (Or.inr ⟨rfl, Or.inr ⟨rfl, h⟩⟩)
      · exact Or.inr (Or.inr ⟨rfl, Or.inr ⟨rfl, h⟩⟩)
    · exact Or.inr (Or.inr ⟨rfl, Or.inl h⟩)
  · exact Or.inr (Or.inl h)⟩

instance : IsAntisymm GroupKey keyLe := ⟨by
  rintro ⟨a1, a2, a3⟩ ⟨b1, b2, b3⟩ h₁ h₂
  rcases h₁ with h₁ | ⟨rfl, h₁⟩
  · rcases h₂ with h₂ | ⟨e, _⟩
    · exact absurd h₂ (fun h => strLt_asymm h₁ h)
    · exact absurd (e ▸ h₁) (fun h => strLt_asymm h h)
  · rcases h₂ with h₂ | ⟨_, h₂⟩
    · exact absurd h₂ (fun h => strLt_asymm h h)
    · rcases h₁ with h₁ | ⟨rfl, h₁⟩
      · rcases h₂ with h₂ | ⟨e, _⟩
        · exact absurd h₂ (fun h => strLt_asymm h₁ h)
        · exact absurd (e ▸ h₁) (fun h => strLt_asymm h h)
      · rcases h₂ with h₂ | ⟨_, h₂⟩
        · exact absurd h₂ (fun h => strLt_asymm h h)
        · have h3 : a3 = b3 := Sex.toNat_inj _ _ (le_antisymm h₁ h₂)
          rw [h3]⟩

/-! ## Median lemmas -/

theorem ratSort_eq_of_perm {l l' : List ℚ} (h : l.Perm l') : ratSort l = ratSort l' :=
  List.eq_of_perm_of_sorted
    ((List.perm_insertionSort _ l).trans (h.trans (List.perm_insertionSort _ l').symm))
    (List.sorted_insertionSort _ l) (List.sorted_insertionSort _ l')

/-- The median is invariant under permutation of the values. -/
theorem median_perm {l l' : List ℚ} (h : l.Perm l') : median l = median l' := by
  unfold median
  rw [ratSort_eq_of_perm h, h.length_eq]

theorem ratSort_length (l : List ℚ) : (ratSort l).length = l.length :=
  (List.perm_insertionSort _ l).length_eq

/-- A nonempty list of values has a median. -/
theorem median_isSome {l : List ℚ} (h : l ≠ []) : ∃ x, median l = some x := by
  have hlen : 0 < l.length := List.length_pos.mpr h
  have hs : (ratSort l).length = l.length := ratSort_length l
  unfold median
  rw [if_neg (by omega)]
  by_cases hpar : l.length % 2 = 1
  · rw [if_pos hpar]
    have hx : l.length / 2 < (ratSort l).length := by omega
    exact ⟨_, List.get?_eq_get hx⟩
  · rw [if_neg hpar]
    have h2 : 2 ≤ l.length := by omega
    have hx1 : l.length / 2 - 1 < (ratSort l).length := by omega
    have hx2 : l.length / 2 < (ratSort l).length := by omega
    rw [List.get?_eq_get hx1, List.get?_eq_get hx2]
    exact ⟨_, rfl⟩

theorem median_some_getD {l : List ℚ} (h : l ≠ []) :
    some ((median l).getD 0) = median l := by
  obtain ⟨x, hx⟩ := median_isSome h
  rw [hx]; rfl

/-! ## Group-key lemmas for the aggregator -/

theorem aggKey_mkAggRow (rows : List RnaseqRow) : ∀ k, aggKey (mkAggRow rows k) = k :=
  fun ⟨_, _, _⟩ => rfl

/-- In a duplicate-free list, an element occurs exactly once. -/
theorem countP_eq_one_of_nodup_mem {α : Type} [DecidableEq α] {l : List α} {a : α}
    (hn : l.Nodup) (ha : a ∈ l) : l.countP (fun x => decide (x = a)) = 1 := by
  induction l with
  | nil => simp at ha
  | cons b t ih =>
    rw [List.countP_cons]
    rcases List.mem_cons.mp ha with rfl | ha'
    · have ht : t.countP (fun x => decide (x = a)) = 0 := by
        rw [List.countP_eq_zero]
        intro x hx
        have hne : x ≠ a := fun e => (List.nodup_cons.mp hn).1 (e ▸ hx)
        simp [hne]
      simp [ht]
    · have hb : ¬ (b = a) := fun e => (List.nodup_cons.mp hn).1 (e ▸ ha')
      rw [ih (List.nodup_cons.mp hn).2 ha']
      simp [hb]

theorem sortedKeys_nodup (rows : List RnaseqRow) : (sortedKeys rows).Nodup :=
  ((List.perm_insertionSort keyLe _).nodup_iff).mpr (List.nodup_dedup _)

theorem mem_sortedKeys {rows : List RnaseqRow} {k : GroupKey} :
    k ∈ sortedKeys rows ↔ ∃ r ∈ rows, keyOf r = some k := by
  unfold sortedKeys
  rw [(List.perm_insertionSort keyLe _).mem_iff, List.mem_dedup, List.mem_filterMap]

theorem mem_groupOf {rows : List RnaseqRow} {k : GroupKey} {r : RnaseqRow} :
    r ∈ groupOf rows k ↔
      r ∈ rows ∧ r.ensg = k.1 ∧ r.smtsd = k.2.1 ∧ r.sex = some k.2.2 := by
  unfold groupOf
  rw [List.mem_filter]
  simp [and_assoc]

theorem keyOf_eq_some {r : RnaseqRow} {k : GroupKey} :
    keyOf r = some k ↔ r.ensg = k.1 ∧ r.smtsd = k.2.1 ∧ r.sex = some k.2.2 := by
  rcases k with ⟨g, t, s⟩
  unfold keyOf
  cases hsex : r.sex with
  | none => simp
  | some s' =>
    constructor
    · intro h
      injection h with h
      injection h with h1 h23
      injection h23 with h2 h3
      exact ⟨h1, h2, congrArg some h3⟩
    · rintro ⟨h1, h2, h3⟩
      injection h3 with h3
      subst h1; subst h2; subst h3
      rfl

/-- Membership of a key among the group keys coincides with its group of
rows being nonempty. -/
theorem mem_sortedKeys_iff_group {rows : List RnaseqRow} {k : GroupKey} :
    k ∈ sortedKeys rows ↔ groupOf rows k ≠ [] := by
  rw [mem_sortedKeys]
  constructor
  · rintro ⟨r, hr, hkey⟩ hemp
    have hmem : r ∈ groupOf rows k := mem_groupOf.mpr ⟨hr, keyOf_eq_some.mp hkey⟩
    rw [hemp] at hmem
    exact absurd hmem (List.not_mem_nil r)
  · intro hne
    rcases hl : groupOf rows k with _ | ⟨r, rest⟩
    · exact absurd hl hne
    · have hr : r ∈ groupOf rows k := by rw [hl]; exact List.mem_cons_self r rest
      obtain ⟨hrl, hprops⟩ := mem_groupOf.mp hr
      exact ⟨r, hrl, keyOf_eq_some.mpr hprops⟩

theorem bothSexes_append {l₁ l₂ : List RnaseqRow}
    (h₁ : BothSexes l₁) (h₂ : BothSexes l₂) : BothSexes (l₁ ++ l₂) := by
  intro r hr
  rcases List.mem_append.mp hr with hr | hr
  · obtain ⟨⟨rf, hf, ef⟩, ⟨rm, hm, em⟩⟩ := h₁ r hr
    exact ⟨⟨rf, List.mem_append.mpr (Or.inl hf), ef⟩,
           ⟨rm, List.mem_append.mpr (Or.inl hm), em⟩⟩
  · obtain ⟨⟨rf, hf, ef⟩, ⟨rm, hm, em⟩⟩ := h₂ r hr
    exact ⟨⟨rf, List.mem_append.mpr (Or.inr hf), ef⟩,
           ⟨rm, List.mem_append.mpr (Or.inr hm), em⟩⟩

theorem bothSexes_perm {l l' : List RnaseqRow} (hp : l.Perm l')
    (h : BothSexes l) : BothSexes l' := by
  intro r hr
  obtain ⟨⟨rf, hf, ef⟩, ⟨rm, hm, em⟩⟩ := h r (hp.mem_iff.mpr hr)
  exact ⟨⟨rf, hp.mem_iff.mp hf, ef⟩, ⟨rm, hp.mem_iff.mp hm, em⟩⟩

/-- A filter whose predicate depends only on the gene and tissue of a
row preserves sex-completeness. -/
theorem bothSexes_filter {l : List RnaseqRow} (q : RnaseqRow → Bool)
    (hq : ∀ a b : RnaseqRow, a.ensg = b.ensg → a.smtsd = b.smtsd → q a = q b)
    (h : BothSexes l) : BothSexes (l.filter q) := by
  intro r hr
  rw [List.mem_filter] at hr
  obtain ⟨⟨rf, hf, ef1, ef2, ef3⟩, ⟨rm, hm, em1, em2, em3⟩⟩ := h r hr.1
  refine ⟨⟨rf, List.mem_filter.mpr ⟨hf, ?_⟩, ef1, ef2, ef3⟩,
          ⟨rm, List.mem_filter.mpr ⟨hm, ?_⟩, em1, em2, em3⟩⟩
  · rw [hq rf r ef1 ef2]; exact hr.2
  · rw [hq rm r em1 em2]; exact hr.2

/-- A duplicate-free list of sexes of length at least two contains both
values. -/
theorem sexes_cover (l : List Sex) (hn : l.Nodup) (h2 : 2 ≤ l.length) :
    Sex.F ∈ l ∧ Sex.M ∈ l := by
  match l with
  | [] => simp at h2
  | [a] => simp at h2
  | a :: b :: t =>
    have hab : a ≠ b := by
      have := List.nodup_cons.mp hn
      exact fun e => this.1 (e ▸ List.mem_cons_self b t)
    cases a <;> cases b <;> simp_all

/-- Rows of `rowsOfTissue rows t` have tissue `t`. -/
theorem mem_rowsOfTissue {rows : List RnaseqRow} {t : String} {r : RnaseqRow} :
    r ∈ rowsOfTissue rows t ↔ r ∈ rows ∧ r.smtsd = t := by
  unfold rowsOfTissue
  rw [List.mem_filter]
  simp

/-- Each surviving per-tissue part of the first `CleanRnaseq` loop is
sex-complete. -/
theorem bothSexes_tissueStep2 {rows : List RnaseqRow} {t : String}
    {part : List RnaseqRow} (h : tissueStep2 rows t = some part) :
    BothSexes part := by
  unfold tissueStep2 at h
  by_cases hc : (distinctSexes (rowsOfTissue rows t)).length < 2
  · simp [hc] at h
  · simp [hc] at h
    subst h
    set trows := rowsOfTissue rows t with htrows
    intro r hr
    rw [List.mem_filter] at hr
    obtain ⟨hrl, hrq⟩ := hr
    have hok : 2 ≤ (distinctSexes (geneRows trows r.ensg)).length := by
      have := of_decide_eq_true hrq
      exact this
    have hnd : (distinctSexes (geneRows trows r.ensg)).Nodup := List.nodup_dedup _
    obtain ⟨hF, hM⟩ := sexes_cover _ hnd hok
    have hF' := List.mem_dedup.mp hF
    have hM' := List.mem_dedup.mp hM
    obtain ⟨rf, hfg, hfs⟩ := List.mem_filterMap.mp hF'
    obtain ⟨rm, hmg, hms⟩ := List.mem_filterMap.mp hM'
    have hfg' := List.mem_filter.mp hfg
    have hmg' := List.mem_filter.mp hmg
    have hfe : rf.ensg = r.ensg := by simpa using hfg'.2
    have hme : rm.ensg = r.ensg := by simpa using hmg'.2
    have hft : rf.smtsd = r.smtsd := by
      have h1 := (mem_rowsOfTissue.mp hfg'.1).2
      have h2 := (mem_rowsOfTissue.mp hrl).2
      rw [h1, h2]
    have hmt : rm.smtsd = r.smtsd := by
      have h1 := (mem_rowsOfTissue.mp hmg'.1).2
      have h2 := (mem_rowsOfTissue.mp hrl).2
      rw [h1, h2]
    refine ⟨⟨rf, List.mem_filter.mpr ⟨hfg'.1, ?_⟩, hfe, hft, hfs⟩,
            ⟨rm, List.mem_filter.mpr ⟨hmg'.1, ?_⟩, hme, hmt, hms⟩⟩
    · unfold geneSexOk at hrq ⊢
      rw [hfe]; exact hrq
    · unfold geneSexOk at hrq ⊢
      rw [hme]; exact hrq

/-- Each per-tissue part of the second `CleanRnaseq` loop preserves
sex-completeness of the table it draws from. -/
theorem bothSexes_tissueStep3 {l : List RnaseqRow} (t : String)
    (h : BothSexes l) : BothSexes (tissueStep3 l t) := by
  unfold tissueStep3 rowsOfTissue
  rw [List.filter_filter]
  exact bothSexes_filter _ (fun a b he ht => by rw [he, ht]) h

/-! Unfolding equations for `accumTissues`. -/

theorem accumTissues_nil (step : String → Option (List RnaseqRow)) (i : Nat)
    (acc : Option (List RnaseqRow)) : accumTissues step [] i acc = acc := rfl

theorem accumTissues_skip {step : String → Option (List RnaseqRow)} {t : String}
    (ts : List String) (i : Nat) (acc : Option (List RnaseqRow))
    (hst : step t = none) :
    accumTissues step (t :: ts) i acc = accumTissues step ts (i + 1) acc := by
  conv_lhs => rw [accumTissues.eq_def]
  simp [hst]

theorem accumTissues_zero {step : String → Option (List RnaseqRow)} {t : String}
    {part : List RnaseqRow} (ts : List String) (acc : Option (List RnaseqRow))
    (hst : step t = some part) :
    accumTissues step (t :: ts) 0 acc = accumTissues step ts 1 (some part) := by
  conv_lhs => rw [accumTissues.eq_def]
  simp [hst]

theorem accumTissues_pos_none {step : String → Option (List RnaseqRow)} {t : String}
    {part : List RnaseqRow} (ts : List String) {i : Nat}
    (hst : step t = some part) (hi : i ≠ 0) :
    accumTissues step (t :: ts) i none = none := by
  conv_lhs => rw [accumTissues.eq_def]
  simp [hst, hi]

theorem accumTissues_pos_some {step : String → Option (List RnaseqRow)} {t : String}
    {part : List RnaseqRow} (ts : List String) {i : Nat} (s : List RnaseqRow)
    (hst : step t = some part) (hi : i ≠ 0) :
    accumTissues step (t :: ts) i (some s) =
      accumTissues step ts (i + 1) (some (s ++ part)) := by
  conv_lhs => rw [accumTissues.eq_def]
  simp [hst, hi]

/-- The accumulation loop of `CleanRnaseq` preserves sex-completeness:
if every surviving per-tissue part and the incoming binding are
sex-complete, so is the result. -/
theorem bothSexes_accumTissues (step : String → Option (List RnaseqRow))
    (hstep : ∀ t part, step t = some part → BothSexes part) :
    ∀ (ts : List String) (i : Nat) (acc : Option (List RnaseqRow)),
      (∀ s, acc = some s → BothSexes s) →
      ∀ res, accumTissues step ts i acc = some res → BothSexes res := by
  intro ts
  induction ts with
  | nil => intro i acc hacc res h; exact hacc res h
  | cons t ts ih =>
    intro i acc hacc res h
    cases hst : step t with
    | none =>
      rw [accumTissues_skip ts i acc hst] at h
      exact ih (i + 1) acc hacc res h
    | some part =>
      by_cases hi : i = 0
      · subst hi
        rw [accumTissues_zero ts acc hst] at h
        exact ih 1 (some part) (fun s hs => by
          injection hs with hs; exact hs ▸ hstep t part hst) res h
      · cases acc with
        | none =>
          rw [accumTissues_pos_none ts hst hi] at h
          exact absurd h (by simp)
        | some s =>
          rw [accumTissues_pos_some ts s hst hi] at h
          exact ih (i + 1) (some (s ++ part)) (fun s' hs' => by
            injection hs' with hs'
            exact hs' ▸ bothSexes_append (hacc s rfl) (hstep t part hst)) res h

/-- C1.  For every (gene, tissue) pair present in the output of the
Cross-Sex Consistency Filter (`CleanRnaseq`), records with both sex
values F and M occur: each retained row's gene has, within its tissue,
at least one output record of each sex.  (A tissue removed wholesale as
sex-specific has no rows in the output, so it imposes nothing.) -/
theorem CleanRnaseq_sex_complete (rows out : List RnaseqRow)
    (h : CleanRnaseq rows = some out) :
    ∀ r ∈ out,
      (∃ rf ∈ out, rf.ensg = r.ensg ∧ rf.smtsd = r.smtsd ∧ rf.sex = some Sex.F) ∧
      (∃ rm ∈ out, rm.ensg = r.ensg ∧ rm.smtsd = r.smtsd ∧ rm.sex = some Sex.M) := by
  unfold CleanRnaseq at h
  cases h1 : accumTissues (tissueStep2 rows) (sortedTissues rows) 0 none with
  | none => rw [h1] at h; exact absurd h (by simp)
  | some out1 =>
    rw [h1] at h
    have hout1 : BothSexes out1 :=
      bothSexes_accumTissues _ (fun t part hp => bothSexes_tissueStep2 hp)
        (sortedTissues rows) 0 none (fun s hs => by simp at hs) out1 h1
    have hnb : BothSexes (out1.filter (fun r => !isBreast r)) :=
      bothSexes_filter _ (fun a b he ht => by unfold isBreast; rw [ht]) hout1
    set noBreast := out1.filter (fun r => !isBreast r) with hnbdef
    have h' : (match accumTissues (fun t => some (tissueStep3 noBreast t))
        (sortedTissues noBreast) 0 (some out1) with
      | none => none
      | some out2 => some (out2.insertionSort rowLe)) = some out := h
    cases h2 : accumTissues (fun t => some (tissueStep3 noBreast t))
        (sortedTissues noBreast) 0 (some out1) with
    | none => rw [h2] at h'; exact absurd h' (by simp)
    | some out2 =>
      rw [h2] at h'
      have hout2 : BothSexes out2 :=
        bothSexes_accumTissues _ (fun t part hp => by
          injection hp with hp; exact hp ▸ bothSexes_tissueStep3 t hnb)
          (sortedTissues noBreast) 0 (some out1)
          (fun s hs => by injection hs with hs; exact hs ▸ hout1) out2 h2
      have hperm : (out2.insertionSort rowLe).Perm out2 :=
        List.perm_insertionSort rowLe out2
      have hout' : out = out2.insertionSort rowLe := by
        injection h' with h'; exact h'.symm
      exact hout' ▸ bothSexes_perm hperm.symm hout2

/-! ## Aggregator claims C4, C5, C10 -/

/-- C4.  For every group of expression records sharing (gene ID,
tissue-detailed, sex), the Median Aggregator emits exactly one record,
whose value is the standard median of the group's expression values
(the average of the two central order statistics for even-sized groups,
the single value for a singleton group); no nonempty group is
dropped. -/
theorem SABV_aggregate_median_group (rows : List RnaseqRow) (g t : String) (s : Sex)
    (h : groupOf rows (g, t, s) ≠ []) :
    (SABV_aggregate_median rows).countP
        (fun a => decide (aggKey a = (g, t, s))) = 1 ∧
    ∀ a ∈ SABV_aggregate_median rows, aggKey a = (g, t, s) →
      some a.tpm = median ((groupOf rows (g, t, s)).map (fun r => r.tpm)) := by
  constructor
  · unfold SABV_aggregate_median
    rw [List.countP_map]
    have hcong : (sortedKeys rows).countP
        ((fun a => decide (aggKey a = (g, t, s))) ∘ mkAggRow rows) =
        (sortedKeys rows).countP (fun k => decide (k = (g, t, s))) :=
      List.countP_congr (fun k hk => by
        simp [Function.comp, aggKey_mkAggRow])
    rw [hcong]
    have hmem : (g, t, s) ∈ sortedKeys rows := mem_sortedKeys_iff_group.mpr h
    exact countP_eq_one_of_nodup_mem (sortedKeys_nodup rows) hmem
  · intro a ha hkey
    unfold SABV_aggregate_median at ha
    obtain ⟨k, hk, hmk⟩ := List.mem_map.mp ha
    have hkeq : k = (g, t, s) := by rw [← hkey, ← hmk, aggKey_mkAggRow]
    subst hkeq
    rw [← hmk]
    show some ((median ((groupOf rows (g, t, s)).map (fun r => r.tpm))).getD 0) = _
    exact median_some_getD (fun hm => h (List.map_eq_nil_iff.mp hm))

/-- C5.  The Median Aggregator is a pure reduction: permuting the input
rows leaves its output table unchanged (pandas sorts the group keys, and
the median is order-insensitive). -/
theorem SABV_aggregate_median_perm (rows rows' : List RnaseqRow)
    (h : rows.Perm rows') :
    SABV_aggregate_median rows = SABV_aggregate_median rows' := by
  have hkeys : sortedKeys rows = sortedKeys rows' :=
    List.eq_of_perm_of_sorted
      ((List.perm_insertionSort keyLe _).trans
        (((h.filterMap keyOf).dedup).trans (List.perm_insertionSort keyLe _).symm))
      (List.sorted_insertionSort keyLe _) (List.sorted_insertionSort keyLe _)
  unfold SABV_aggregate_median
  rw [hkeys]
  apply List.map_congr_left
  intro k hk
  unfold mkAggRow
  have hg : ((groupOf rows k).map (fun r => r.tpm)).Perm
      ((groupOf rows' k).map (fun r => r.tpm)) := (h.filter _).map _
  rw [median_perm hg]

/-- C10.  The Median Aggregator's output has at most one row per
(gene ID, tissue-detailed, sex) triple: its key column list is
duplicate-free, so the Profile Reshaper's pivot precondition holds by
construction when the pipeline is run in sequence. -/
theorem SABV_aggregate_median_keys_nodup (rows : List RnaseqRow) :
    ((SABV_aggregate_median rows).map aggKey).Nodup := by
  unfold SABV_aggregate_median
  rw [List.map_map]
  have hmaps : (sortedKeys rows).map (aggKey ∘ mkAggRow rows) =
      (sortedKeys rows).map id :=
    List.map_congr_left (fun k hk => by simp [Function.comp, aggKey_mkAggRow])
  rw [hmaps, List.map_id]
  exact sortedKeys_nodup rows

/-! ## `CleanSamples` and the sex decode (claim C3) -/

theorem decodeSex_eq_none {c : ℤ} : decodeSex c = none ↔ c ≠ 2 ∧ c ≠ 1 := by
  unfold decodeSex
  split_ifs <;> simp_all

/-- C3 counterexample: `CleanSamples` retains a row whose coded sex value
is 3 — neither 2 nor 1 — and its decoded sex is null in the returned
table, contradicting the claim that such rows are excluded and that
every cleaned row has a non-null sex. -/
theorem CleanSamples_bad_code_retained :
    CleanSamples c3Input =
      [⟨"GTEX-ABC-0001", 0, "Blood", "Whole Blood", "GTEX-ABC", none, "60-69", 1⟩] ∧
    ∃ r ∈ CleanSamples c3Input, r.sex = none := by
  constructor
  · decide
  · decide

/-- C3 (amended).  Every row of the cleaned sample table comes from an
input row with no null column (in particular a non-null coded sex) and
autolysis score below 2, and its sex column holds the decode of that
coded sex: F for 2, M for 1; for any other code the row is retained with
a null sex rather than excluded. -/
theorem CleanSamples_sex_decode (samples : List SampleRowIn) :
    ∀ r ∈ CleanSamples samples, ∃ r0 ∈ samples, ∃ c : ℤ,
      r0.sexCode = some c ∧ r.sex = decodeSex c ∧ r.smatsscr < 2 ∧
      (r.sex = none ↔ c ≠ 2 ∧ c ≠ 1) := by
  intro r hr
  unfold CleanSamples at hr
  obtain ⟨r1, hr1, hmap⟩ := List.mem_map.mp hr
  rw [List.mem_filter] at hr1
  obtain ⟨hr2, hsc⟩ := hr1
  obtain ⟨r0, hr0, hdn⟩ := List.mem_filterMap.mp hr2
  unfold dropnaDecode at hdn
  split at hdn
  case _ a b c' d e f g' h' heq1 heq2 heq3 heq4 heq5 heq6 heq7 heq8 =>
    injection hdn with hdn
    have hsex : r.sex = r1.sex := by
      split at hmap <;> rw [← hmap]
    have hscr : r.smatsscr = r1.smatsscr := by
      split at hmap <;> rw [← hmap]
    refine ⟨r0, hr0, f, heq6, ?_, ?_, ?_⟩
    · rw [hsex, ← hdn]
    · rw [hscr]
      exact of_decide_eq_true hsc
    · rw [hsex, ← hdn]
      exact decodeSex_eq_none
  case _ =>
    exact absurd hdn (by simp)

/-! ## Pivot lemmas (claims C8, C9) -/

/-- A table with one row per (gene, tissue, sex) triple has, within each
sex, one row per (gene, tissue) pair — the `pivot` precondition. -/
theorem not_pivotKeyClash_of_nodup (rows : List AggRow) (s : Sex)
    (hnd : (rows.map (fun r => (r.ensg, r.smtsd, r.sex))).Nodup) :
    ¬ pivotKeyClash (rows.filter (fun r => r.sex == s)) := by
  unfold pivotKeyClash
  rw [not_not]
  have hsub : ((rows.filter (fun r => r.sex == s)).map
      (fun r => (r.ensg, r.smtsd, r.sex))).Sublist
      (rows.map (fun r => (r.ensg, r.smtsd, r.sex))) :=
    (List.filter_sublist rows).map _
  have hnd3 : ((rows.filter (fun r => r.sex == s)).map
      (fun r => (r.ensg, r.smtsd, r.sex))).Nodup := hnd.sublist hsub
  have hinj := List.inj_on_of_nodup_map hnd3
  have hrs : (rows.filter (fun r => r.sex == s)).Nodup := List.Nodup.of_map _ hnd3
  refine List.Nodup.map_on ?_ hrs
  intro x hx y hy hxy
  have hxs : x.sex = s := by simpa using (List.mem_filter.mp hx).2
  have hys : y.sex = s := by simpa using (List.mem_filter.mp hy).2
  injection hxy with e1 e2
  exact hinj hx hy (by rw [e1, e2, hxs, hys])

/-- The reduced form of `PivotToProfiles` when neither sex sub-table has
duplicate pivot keys. -/
theorem PivotToProfiles_eq (rows : List AggRow) (tord : Option (List String))
    (hF : ¬ pivotKeyClash (rows.filter (fun r => r.sex == Sex.F)))
    (hM : ¬ pivotKeyClash (rows.filter (fun r => r.sex == Sex.M))) :
    PivotToProfiles rows tord =
      some ("ENSG" :: "SEX" :: resolvedTissues rows tord,
        profileRows (resolvedTissues rows tord) Sex.F
          (rows.filter (fun r => r.sex == Sex.F)) ++
        profileRows (resolvedTissues rows tord) Sex.M
          (rows.filter (fun r => r.sex == Sex.M)),
        pivotDiagnostics rows tord) := by
  unfold PivotToProfiles
  rw [if_neg (by rintro (hc | hc); exacts [hF hc, hM hc])]

/-- Every row of a pivoted sex sub-table carries that sex. -/
theorem mem_profileRows {tissues : List String} {s : Sex} {rs : List AggRow}
    {p : ProfileRow} (hp : p ∈ profileRows tissues s rs) :
    p.sex = s ∧ p.ensg ∈ rs.map (fun r => r.ensg) ∧
    p.cells = tissues.map (fun t =>
      ((rs.find? (fun r => r.ensg == p.ensg && r.smtsd == t)).map (fun r => r.tpm))) := by
  unfold profileRows at hp
  obtain ⟨g, hg, hmk⟩ := List.mem_map.mp hp
  have hgm : g ∈ rs.map (fun r => r.ensg) := by
    have := (List.perm_insertionSort strLe _).mem_iff.mp hg
    exact List.mem_dedup.mp this
  rw [← hmk]
  exact ⟨rfl, hgm, rfl⟩

/-- The number of rows for gene `g` in the pivoted sub-table of sex `s`:
one for each gene of the sub-table. -/
theorem countP_profileRows_pos {tissues : List String} {s : Sex} {rs : List AggRow}
    {g : String} (hg : g ∈ rs.map (fun r => r.ensg)) :
    (profileRows tissues s rs).countP
      (fun p => decide (p.ensg = g ∧ p.sex = s)) = 1 := by
  unfold profileRows
  rw [List.countP_map]
  have hnd : (strSort (rs.map (fun r => r.ensg)).dedup).Nodup :=
    ((List.perm_insertionSort strLe _).nodup_iff).mpr (List.nodup_dedup _)
  have hmem : g ∈ strSort (rs.map (fun r => r.ensg)).dedup :=
    (List.perm_insertionSort strLe _).mem_iff.mpr (List.mem_dedup.mpr hg)
  refine Eq.trans (List.countP_congr ?_) (countP_eq_one_of_nodup_mem hnd hmem)
  intro g' hg'
  simp [Function.comp]

/-- A pivoted sub-table contributes no rows for the other sex. -/
theorem countP_profileRows_other {tissues : List String} {s s' : Sex}
    {rs : List AggRow} {g : String} (hss : s ≠ s') :
    (profileRows tissues s rs).countP
      (fun p => decide (p.ensg = g ∧ p.sex = s')) = 0 := by
  rw [List.countP_eq_zero]
  intro p hp
  have h1 := (mem_profileRows hp).1
  simp only [decide_eq_true_eq, not_and]
  exact fun _ => h1 ▸ hss

/-- In a pivoted sex sub-table drawn from the sex-filtered rows, a
(gene, tissue, sex) combination absent from the aggregate input shows as
an explicit missing cell. -/
theorem profileRows_missing_cell {tissues : List String} {s : Sex}
    {rows : List AggRow} {p : ProfileRow} {i : Nat} {t : String}
    (hp : p ∈ profileRows tissues s (rows.filter (fun r => r.sex == s)))
    (ht : tissues.get? i = some t)
    (habs : ∀ r ∈ rows, ¬(r.ensg = p.ensg ∧ r.smtsd = t ∧ r.sex = p.sex)) :
    p.cells.get? i = some none := by
  obtain ⟨hsex, hgm, hcells⟩ := mem_profileRows hp
  rw [hcells, List.get?_map, ht]
  simp
  intro x hx hxs hxe hxt
  exact habs x hx ⟨hxe, hxt, by rw [hxs, hsex]⟩

/-- C8.  Under the pivot precondition — at most one aggregate record per
(gene ID, tissue, sex) triple — the Profile Reshaper completes and its
output has exactly one row per (gene, sex) pair present in the
aggregate input, and every (gene, tissue, sex) combination absent from
the input appears in such a row as an explicit missing cell (`none`),
never as zero. -/
theorem PivotToProfiles_completeness (rows : List AggRow)
    (tord : Option (List String))
    (hnd : (rows.map (fun r => (r.ensg, r.smtsd, r.sex))).Nodup) :
    ∃ pr, PivotToProfiles rows tord =
        some ("ENSG" :: "SEX" :: resolvedTissues rows tord, pr,
          pivotDiagnostics rows tord) ∧
      (∀ g s, (∃ r ∈ rows, r.ensg = g ∧ r.sex = s) →
        pr.countP (fun p => decide (p.ensg = g ∧ p.sex = s)) = 1) ∧
      (∀ p ∈ pr, ∀ i t, (resolvedTissues rows tord).get? i = some t →
        (∀ r ∈ rows, ¬(r.ensg = p.ensg ∧ r.smtsd = t ∧ r.sex = p.sex)) →
        p.cells.get? i = some none) := by
  have hF := not_pivotKeyClash_of_nodup rows Sex.F hnd
  have hM := not_pivotKeyClash_of_nodup rows Sex.M hnd
  refine ⟨_, PivotToProfiles_eq rows tord hF hM, ?_, ?_⟩
  · rintro g s ⟨r, hr, hensg, hsex⟩
    rw [List.countP_append]
    cases s with
    | F =>
      have hg : g ∈ (rows.filter (fun r => r.sex == Sex.F)).map (fun r => r.ensg) :=
        List.mem_map.mpr ⟨r, List.mem_filter.mpr ⟨hr, by simp [hsex]⟩, hensg⟩
      rw [countP_profileRows_pos hg,
        countP_profileRows_other (by simp : Sex.M ≠ Sex.F)]
    | M =>
      have hg : g ∈ (rows.filter (fun r => r.sex == Sex.M)).map (fun r => r.ensg) :=
        List.mem_map.mpr ⟨r, List.mem_filter.mpr ⟨hr, by simp [hsex]⟩, hensg⟩
      rw [countP_profileRows_pos hg,
        countP_profileRows_other (by simp : Sex.F ≠ Sex.M)]
  · intro p hp i t ht habs
    rcases List.mem_append.mp hp with hp | hp
    · exact profileRows_missing_cell hp ht habs
    · exact profileRows_missing_cell hp ht habs

/-- C9.  When the supplied ordered tissue list's label set differs from
the observed set, PivotToProfiles still completes, its tissue columns
follow the ascending (lexicographically sorted) order of the observed
labels, and it logs diagnostics naming the tissues present in one list
but not the other; when the sets match exactly the supplied order is
used and no diagnostic is logged. -/
theorem PivotToProfiles_tissue_fallback
    (agg1 agg2 : List AggRow) (t1 t2 : List String)
    (h1 : (agg1.map (fun r => (r.ensg, r.smtsd, r.sex))).Nodup)
    (h2 : (agg2.map (fun r => (r.ensg, r.smtsd, r.sex))).Nodup)
    (hmm : sameSet (observedTissues agg1) t1 = false)
    (hmt : sameSet (observedTissues agg2) t2 = true) :
    (∃ pr, PivotToProfiles agg1 (some t1) =
        some ("ENSG" :: "SEX" :: observedTissues agg1, pr,
          [t1.filter (fun t => !(observedTissues agg1).contains t),
           (observedTissues agg1).filter (fun t => !t1.contains t)]) ∧
      pivotDiagnostics agg1 (some t1) ≠ [] ∧
      List.Sorted strLe (observedTissues agg1)) ∧
    (∃ pr, PivotToProfiles agg2 (some t2) =
        some ("ENSG" :: "SEX" :: t2, pr, [])) := by
  have hres1 : resolvedTissues agg1 (some t1) = observedTissues agg1 := by
    simp [resolvedTissues, hmm]
  have hdiag1 : pivotDiagnostics agg1 (some t1) =
      [t1.filter (fun t => !(observedTissues agg1).contains t),
       (observedTissues agg1).filter (fun t => !t1.contains t)] := by
    simp [pivotDiagnostics, hmm]
  have hres2 : resolvedTissues agg2 (some t2) = t2 := by
    simp [resolvedTissues, hmt]
  have hdiag2 : pivotDiagnostics agg2 (some t2) = [] := by
    simp [pivotDiagnostics, hmt]
  constructor
  · refine ⟨profileRows (observedTissues agg1) Sex.F
        (agg1.filter (fun r => r.sex == Sex.F)) ++
      profileRows (observedTissues agg1) Sex.M
        (agg1.filter (fun r => r.sex == Sex.M)), ?_, ?_,
      List.sorted_insertionSort strLe _⟩
    · rw [PivotToProfiles_eq agg1 (some t1)
        (not_pivotKeyClash_of_nodup _ _ h1) (not_pivotKeyClash_of_nodup _ _ h1),
        hres1, hdiag1]
    · rw [hdiag1]; simp
  · refine ⟨profileRows t2 Sex.F (agg2.filter (fun r => r.sex == Sex.F)) ++
      profileRows t2 Sex.M (agg2.filter (fun r => r.sex == Sex.M)), ?_⟩
    rw [PivotToProfiles_eq agg2 (some t2)
      (not_pivotKeyClash_of_nodup _ _ h2) (not_pivotKeyClash_of_nodup _ _ h2),
      hres2, hdiag2]

/-- C2 (code bug).  When the alphabetically first tissue is sex-specific
(the loop `continue`s on iteration 0 and the accumulator `rnaseq_out` is
never bound before the next concatenation reads it), or every tissue is
sex-specific, `CleanRnaseq` raises `NameError` instead of returning a
table — modelled as `none`. -/
theorem CleanRnaseq_first_tissue_error :
    CleanRnaseq c2Rows = none ∧ CleanRnaseq c2AllRows = none := by
  refine ⟨by decide, by decide⟩

/-- C6 (code bug).  When every tissue surviving the first loop is
breast, the breast filter empties the table, the second loop runs zero
iterations, and the function returns the stale accumulator from the
first loop — so the breast rows reappear in the output, contradicting
the unconditional breast exclusion. -/
theorem CleanRnaseq_breast_leak :
    CleanRnaseq c6Rows = some c6Rows ∧ ∃ r ∈ c6Rows, isBreast r = true := by
  refine ⟨by decide, by decide⟩

/-- C7 (code bug).  Through the same stale-accumulator path, a gene with
uniformly zero expression within its (breast) tissue survives into the
output of `CleanRnaseq`: the output contains a (gene, tissue) pair all
of whose records have expression 0, contradicting the zero-expression
invariant. -/
theorem CleanRnaseq_allzero_leak :
    CleanRnaseq c7Rows = some c7Rows ∧ c7Rows ≠ [] ∧
      ∀ r ∈ c7Rows, r.tpm = 0 := by
  refine ⟨by decide, by decide, by decide⟩

/-- Witness for C1 at a concrete two-row table that `CleanRnaseq` keeps
whole. -/
theorem CleanRnaseq_sex_complete_witness :
    (∃ rf ∈ w1Rows, rf.ensg = w1F.ensg ∧ rf.smtsd = w1F.smtsd ∧
      rf.sex = some Sex.F) ∧
    (∃ rm ∈ w1Rows, rm.ensg = w1F.ensg ∧ rm.smtsd = w1F.smtsd ∧
      rm.sex = some Sex.M) :=
  CleanRnaseq_sex_complete w1Rows w1Rows (by decide) w1F (by decide)

/-- Witness for the amended C3 at a concrete row with coded sex 2. -/
theorem CleanSamples_sex_decode_witness :
    ∃ r0 ∈ [w3In], ∃ c : ℤ,
      r0.sexCode = some c ∧ w3Out.sex = decodeSex c ∧ w3Out.smatsscr < 2 ∧
      (w3Out.sex = none ↔ c ≠ 2 ∧ c ≠ 1) :=
  CleanSamples_sex_decode [w3In] w3Out (by decide)

/-- Witness for C4: on the synthetic group [1, 2, 3, 4] the aggregator
emits one record whose value is the median 5/2; a singleton group [5]
has median 5. -/
theorem SABV_aggregate_median_group_witness :
    ((SABV_aggregate_median w4Rows).countP
        (fun a => decide (aggKey a = ("G", "T", Sex.F))) = 1 ∧
      ∀ a ∈ SABV_aggregate_median w4Rows, aggKey a = ("G", "T", Sex.F) →
        some a.tpm = median ((groupOf w4Rows ("G", "T", Sex.F)).map (fun r => r.tpm))) ∧
    median ((groupOf w4Rows ("G", "T", Sex.F)).map (fun r => r.tpm)) = some (5 / 2) ∧
    median [5] = some 5 := by
  refine ⟨SABV_aggregate_median_group w4Rows "G" "T" Sex.F (by decide), ?_, by decide⟩
  have hgrp : (groupOf w4Rows ("G", "T", Sex.F)).map (fun r => r.tpm) =
      ([1, 2, 3, 4] : List ℚ) := by decide
  have hsort : ratSort ([1, 2, 3, 4] : List ℚ) = [1, 2, 3, 4] := by decide
  rw [hgrp]
  simp [median, hsort]
  norm_num

/-- Witness for C5 at a concrete transposition of two rows. -/
theorem SABV_aggregate_median_perm_witness :
    SABV_aggregate_median [w5a, w5b] = SABV_aggregate_median [w5b, w5a] :=
  SABV_aggregate_median_perm [w5a, w5b] [w5b, w5a] (List.Perm.swap w5b w5a [])

/-- Witness for C8 at a concrete aggregate table with one gene observed
in tissue A for females and tissue B for males. -/
theorem PivotToProfiles_completeness_witness :
    ∃ pr, PivotToProfiles w8Rows none =
        some ("ENSG" :: "SEX" :: resolvedTissues w8Rows none, pr,
          pivotDiagnostics w8Rows none) ∧
      (∀ g s, (∃ r ∈ w8Rows, r.ensg = g ∧ r.sex = s) →
        pr.countP (fun p => decide (p.ensg = g ∧ p.sex = s)) = 1) ∧
      (∀ p ∈ pr, ∀ i t, (resolvedTissues w8Rows none).get? i = some t →
        (∀ r ∈ w8Rows, ¬(r.ensg = p.ensg ∧ r.smtsd = t ∧ r.sex = p.sex)) →
        p.cells.get? i = some none) :=
  PivotToProfiles_completeness w8Rows none (by decide)

/-- Witness for C9 at a concrete table observed in tissue T, once with
the mismatched supplied order ["X"] and once with the matching supplied
order ["T"]. -/
theorem PivotToProfiles_tissue_fallback_witness :
    (∃ pr, PivotToProfiles w9Rows (some ["X"]) =
        some ("ENSG" :: "SEX" :: observedTissues w9Rows, pr,
          [(["X"] : List String).filter (fun t => !(observedTissues w9Rows).contains t),
           (observedTissues w9Rows).filter (fun t => !(["X"] : List String).contains t)]) ∧
      pivotDiagnostics w9Rows (some ["X"]) ≠ [] ∧
      List.Sorted strLe (observedTissues w9Rows)) ∧
    (∃ pr, PivotToProfiles w9Rows (some ["T"]) =
        some ("ENSG" :: "SEX" :: ["T"], pr, [])) :=
  PivotToProfiles_tissue_fallback w9Rows w9Rows ["X"] ["T"]
    (by decide) (by decide) (by decide) (by decide)

end GtexPrep

